import Mathlib

/-!
Verification of the two-armed bandit task core.

Shallow embedding of the trial/contingency state machine and reward
scheduling engine of `bandit_pygame.py` and `bandit_main_v13.py`
(DVS-Lab/tacs_bandit).  Randomness is made explicit: every call to the
random generator is modelled by an abstract seed argument that selects the
drawn value, so all definitions are executable and all properties are
stated over arbitrary seeds.
-/

/-- Model of `np.random.randint(lo, hi)`: a uniform integer in `[lo, hi-1]`.
The abstract `seed` selects which value of the range is drawn. -/
def randint (lo hi seed : Nat) : Nat := lo + seed % (hi - lo)

/-- The configuration fields consumed by the task core
(`config['task']` and `config['experiment']` in `bandit_pygame.py`). -/
structure TaskConfig where
  min_trials : Nat
  jitter : Nat
  win_fraction : ℚ
  run_duration : ℚ
deriving Repr, DecidableEq

/-- `TwoArmedBanditTask._get_contingency_duration`:
`min_trials + np.random.randint(0, jitter + 1)`. -/
def getContingencyDuration (cfg : TaskConfig) (seed : Nat) : Nat :=
  cfg.min_trials + randint 0 (cfg.jitter + 1) seed

/-- The contingency scheduler state kept on the task object:
`current_good`, `trial_in_contingency`, `contingency_trials`. -/
structure ContingencyState where
  current_good : Nat
  trial_in_contingency : Nat
  contingency_trials : Nat
deriving Repr, DecidableEq

/-- The contingency-update block at the end of `run_trial`
(bandit_pygame.py lines 427-434): increment `trial_in_contingency`; if it
reaches `contingency_trials`, flip `current_good` to `3 - current_good`,
reset the counter to 0 and redraw `contingency_trials` via
`_get_contingency_duration`. -/
def advanceContingency (cfg : TaskConfig) (s : ContingencyState) (seed : Nat) :
    ContingencyState :=
  let t := s.trial_in_contingency + 1
  if t ≥ s.contingency_trials then
    { current_good := 3 - s.current_good
      trial_in_contingency := 0
      contingency_trials := getContingencyDuration cfg seed }
  else
    { s with trial_in_contingency := t }

/-- One row of `trial_data` (the fields relevant to outcome and
contingency bookkeeping). `none` models Python `None`. -/
structure TrialRecord where
  trial_num : Nat
  trial_in_contingency : Nat
  current_good : Nat
  contingency_trials : Nat
  choice : Option Nat
  rt : Option ℚ
  correct : Option Bool
  reward : Option Bool
deriving Repr, DecidableEq

/-- The mutable task state threaded through trials:
`current_trial`, the contingency scheduler fields, and `trial_data`. -/
structure TaskState where
  current_trial : Nat
  contingency : ContingencyState
  trial_data : List TrialRecord
deriving Repr, DecidableEq

/-- Per-trial environment inputs: the keyed response (`none` = timeout),
its reaction time in seconds, the `np.random.random()` draw used for the
reward Bernoulli, and the seed for the contingency redraw. -/
structure TrialInput where
  choice : Option Nat
  rt : ℚ
  rewardDraw : ℚ
  durSeed : Nat
deriving Repr, DecidableEq

/-- The response-processing branch of `run_trial`
(bandit_pygame.py lines 377-394): with a response, `correct = (choice ==
current_good)`, the reward probability is `win_fraction` when correct and
`1 - win_fraction` otherwise, `reward = np.random.random() < reward_prob`,
and `rt` is converted to milliseconds; with no response all three are
`None`. Returns `(correct, reward, rt_ms)`. -/
def processResponse (cfg : TaskConfig) (good : Nat) (choice : Option Nat)
    (rt : ℚ) (u : ℚ) : Option Bool × Option Bool × Option ℚ :=
  match choice with
  | some c =>
      let correct : Bool := decide (c = good)
      let reward_prob := if correct then cfg.win_fraction else 1 - cfg.win_fraction
      let reward : Bool := decide (u < reward_prob)
      (some correct, some reward, some (rt * 1000))
  | none => (none, none, none)

/-- `TwoArmedBanditTask.run_trial`: checks the elapsed run time against the
run duration at the top and returns `none` (the Python `False`, ending the
run) when the deadline has passed; otherwise runs every phase, appends one
fully populated record to `trial_data`, advances the contingency scheduler
once, increments `current_trial` and returns the new state. -/
def run_trial (cfg : TaskConfig) (st : TaskState) (elapsed : ℚ)
    (inp : TrialInput) : Option TaskState :=
  if elapsed ≥ cfg.run_duration then none
  else
    let g := st.contingency.current_good
    let out := processResponse cfg g inp.choice inp.rt inp.rewardDraw
    let tr : TrialRecord :=
      { trial_num := st.current_trial
        trial_in_contingency := st.contingency.trial_in_contingency
        current_good := g
        contingency_trials := st.contingency.contingency_trials
        choice := inp.choice
        rt := out.2.2
        correct := out.1
        reward := out.2.1 }
    some { current_trial := st.current_trial + 1
           contingency := advanceContingency cfg st.contingency inp.durSeed
           trial_data := st.trial_data ++ [tr] }

/-- The main loop of `TwoArmedBanditTask.run`: repeatedly call `run_trial`
and stop as soon as it signals the end of the run.  The list supplies the
per-iteration environment (elapsed time at the trial boundary and the
trial's inputs). -/
def runLoop (cfg : TaskConfig) (st : TaskState) :
    List (ℚ × TrialInput) → TaskState
  | [] => st
  | (e, inp) :: rest =>
      match run_trial cfg st e inp with
      | none => st
      | some st2 => runLoop cfg st2 rest

/-- C1: One `advance` step after a completed trial increments
`trial_in_contingency`; exactly when the incremented counter reaches
`contingency_trials`, `current_good` flips to `3 - current_good`, the
counter resets to 0 and `contingency_trials` is redrawn with the same
formula `min_trials + uniform[0, jitter]`, all in the same step; otherwise
the state is unchanged except for the incremented counter. -/
theorem advanceContingency_spec (cfg : TaskConfig) (s : ContingencyState)
    (seed : Nat) (hg : s.current_good = 1 ∨ s.current_good = 2) :
    ((advanceContingency cfg s seed).current_good ≠ s.current_good ↔
        s.trial_in_contingency + 1 ≥ s.contingency_trials)
    ∧ (s.trial_in_contingency + 1 ≥ s.contingency_trials →
        advanceContingency cfg s seed =
          { current_good := 3 - s.current_good
            trial_in_contingency := 0
            contingency_trials :=
              cfg.min_trials + randint 0 (cfg.jitter + 1) seed })
    ∧ (s.trial_in_contingency + 1 < s.contingency_trials →
        advanceContingency cfg s seed =
          { current_good := s.current_good
            trial_in_contingency := s.trial_in_contingency + 1
            contingency_trials := s.contingency_trials }) := by
  by_cases h : s.trial_in_contingency + 1 ≥ s.contingency_trials
  · refine ⟨?_, fun _ => ?_, fun hlt => absurd h (by omega)⟩
    · rcases hg with hg | hg <;>
        simp [advanceContingency, getContingencyDuration, h, hg]
    · simp [advanceContingency, getContingencyDuration, h]
  · refine ⟨?_, fun h2 => absurd h2 h, fun _ => ?_⟩
    · simp [advanceContingency, h]
    · simp [advanceContingency, h]

/-- C1 witness: at the boundary state (counter 24, length 25) the good
option flips. -/
theorem advanceContingency_spec_witness :
    ((1 : Nat) = 1 ∨ (1 : Nat) = 2) ∧
      (advanceContingency ⟨25, 4, 3/4, 360⟩ ⟨1, 24, 25⟩ 7).current_good ≠ 1 :=
  ⟨Or.inl rfl, by
    have h := advanceContingency_spec ⟨25, 4, 3/4, 360⟩ ⟨1, 24, 25⟩ 7 (Or.inl rfl)
    exact h.1.mpr (by decide)⟩

/-- C2: every drawn contingency length is `min_trials` plus an integer in
`[0, jitter]`, hence lies in `[min_trials, min_trials + jitter]`; moreover
every value of that range is attained by some draw. -/
theorem contingencyDuration_range (cfg : TaskConfig) (seed : Nat)
    (hmin : 1 ≤ cfg.min_trials) :
    (∃ u, u ≤ cfg.jitter ∧
        getContingencyDuration cfg seed = cfg.min_trials + u)
    ∧ cfg.min_trials ≤ getContingencyDuration cfg seed
    ∧ getContingencyDuration cfg seed ≤ cfg.min_trials + cfg.jitter
    ∧ (∀ u, u ≤ cfg.jitter →
        ∃ s2, getContingencyDuration cfg s2 = cfg.min_trials + u) := by
  have hmod : seed % (cfg.jitter + 1) ≤ cfg.jitter :=
    Nat.lt_succ_iff.mp (Nat.mod_lt _ (Nat.succ_pos _))
  unfold getContingencyDuration randint
  refine ⟨⟨seed % (cfg.jitter + 1), hmod, by simp⟩, by omega, by simpa using hmod, ?_⟩
  intro u hu
  exact ⟨u, by simp [Nat.mod_eq_of_lt (Nat.lt_succ_of_le hu)]⟩

/-- C2 witness: with `min_trials = 25`, `jitter = 4` the drawn duration at
seed 9 lies in `[25, 29]`. -/
theorem contingencyDuration_range_witness :
    (1 ≤ 25) ∧ 25 ≤ getContingencyDuration ⟨25, 4, 3/4, 360⟩ 9 ∧
      getContingencyDuration ⟨25, 4, 3/4, 360⟩ 9 ≤ 25 + 4 :=
  ⟨by decide,
    (contingencyDuration_range ⟨25, 4, 3/4, 360⟩ 9 (by decide)).2.1,
    (contingencyDuration_range ⟨25, 4, 3/4, 360⟩ 9 (by decide)).2.2.1⟩

/-- When the elapsed run time has reached the configured run duration,
`run_trial` returns immediately without running a trial. -/
theorem run_trial_eq_none (cfg : TaskConfig) (st : TaskState) (elapsed : ℚ)
    (inp : TrialInput) (h : elapsed ≥ cfg.run_duration) :
    run_trial cfg st elapsed inp = none := by
  simp [run_trial, h]

/-- When the deadline has not passed, `run_trial` runs every phase and
returns the fully updated state: one appended record, the contingency
advanced once, `current_trial` incremented. -/
theorem run_trial_eq_some (cfg : TaskConfig) (st : TaskState) (elapsed : ℚ)
    (inp : TrialInput) (h : ¬ elapsed ≥ cfg.run_duration) :
    run_trial cfg st elapsed inp = some
      { current_trial := st.current_trial + 1
        contingency := advanceContingency cfg st.contingency inp.durSeed
        trial_data := st.trial_data ++
          [{ trial_num := st.current_trial
             trial_in_contingency := st.contingency.trial_in_contingency
             current_good := st.contingency.current_good
             contingency_trials := st.contingency.contingency_trials
             choice := inp.choice
             rt := (processResponse cfg st.contingency.current_good inp.choice
                      inp.rt inp.rewardDraw).2.2
             correct := (processResponse cfg st.contingency.current_good
                      inp.choice inp.rt inp.rewardDraw).1
             reward := (processResponse cfg st.contingency.current_good
                      inp.choice inp.rt inp.rewardDraw).2.1 }] } := by
  simp [run_trial, h]

/-- C3: for a responded trial, `correct` records whether the choice equals
the current good option, and `reward` records whether the uniform draw is
below `win_fraction` (when correct) or `1 - win_fraction` (when
incorrect). -/
theorem run_trial_reward_spec (cfg : TaskConfig) (st : TaskState)
    (elapsed : ℚ) (inp : TrialInput) (c : Nat)
    (helapsed : ¬ elapsed ≥ cfg.run_duration)
    (hc : inp.choice = some c)
    (hc12 : c = 1 ∨ c = 2)
    (hg : st.contingency.current_good = 1 ∨ st.contingency.current_good = 2) :
    ∃ st2, run_trial cfg st elapsed inp = some st2 ∧
      ∃ tr, st2.trial_data = st.trial_data ++ [tr] ∧
        tr.choice = some c ∧
        tr.correct = some (decide (c = st.contingency.current_good)) ∧
        tr.reward = some (decide (inp.rewardDraw <
          if c = st.contingency.current_good then cfg.win_fraction
          else 1 - cfg.win_fraction)) := by
  refine ⟨_, run_trial_eq_some cfg st elapsed inp helapsed, ?_⟩
  refine ⟨_, rfl, ?_, ?_, ?_⟩
  · exact hc
  · simp [processResponse, hc]
  · simp only [processResponse, hc]
    by_cases hcg : c = st.contingency.current_good <;> simp [hcg]

/-- C3 witness: a concrete responded trial choosing option 1 while option
1 is good, with uniform draw 1/2 below win fraction 3/4. -/
theorem run_trial_reward_spec_witness :
    (¬ (0 : ℚ) ≥ 360) ∧
      ∃ st2, run_trial ⟨25, 4, 3/4, 360⟩ ⟨0, ⟨1, 0, 25⟩, []⟩ 0
          ⟨some 1, 1, 1/2, 0⟩ = some st2 ∧
        ∃ tr, st2.trial_data = [] ++ [tr] ∧
          tr.choice = some 1 ∧
          tr.correct = some (decide (1 = (⟨1, 0, 25⟩ : ContingencyState).current_good)) ∧
          tr.reward = some (decide ((1 : ℚ)/2 <
            if 1 = (⟨1, 0, 25⟩ : ContingencyState).current_good then (3 : ℚ)/4
            else 1 - (3 : ℚ)/4)) :=
  ⟨by norm_num,
    run_trial_reward_spec ⟨25, 4, 3/4, 360⟩ ⟨0, ⟨1, 0, 25⟩, []⟩ 0
      ⟨some 1, 1, 1/2, 0⟩ 1 (by norm_num) rfl (Or.inl rfl) (Or.inl rfl)⟩

/-- The nullability invariant relating a record's outcome fields to its
choice field: `reward` and `correct` are `none` exactly when `choice` is. -/
def recordOutcomeInv (tr : TrialRecord) : Prop :=
  (tr.reward = none ↔ tr.choice = none) ∧ (tr.correct = none ↔ tr.choice = none)

/-- C4: every record appended by `run_trial` satisfies the nullability
invariant, so it holds of all of `trial_data` if it held before the trial:
a responded trial stores boolean `correct` and `reward`, a timeout trial
stores `none` for `choice`, `correct` and `reward`. -/
theorem trial_data_outcome_inv (cfg : TaskConfig) (st st2 : TaskState)
    (elapsed : ℚ) (inp : TrialInput)
    (hrun : run_trial cfg st elapsed inp = some st2)
    (hprev : ∀ tr ∈ st.trial_data, recordOutcomeInv tr) :
    ∀ tr ∈ st2.trial_data, recordOutcomeInv tr := by
  by_cases h : elapsed ≥ cfg.run_duration
  · rw [run_trial_eq_none cfg st elapsed inp h] at hrun
    exact absurd hrun (by simp)
  · rw [run_trial_eq_some cfg st elapsed inp h] at hrun
    obtain rfl : _ = st2 := Option.some.inj hrun
    intro tr htr
    rcases List.mem_append.mp htr with hin | hin
    · exact hprev tr hin
    · obtain rfl : tr = _ := List.mem_singleton.mp hin
      cases hch : inp.choice <;>
        simp [recordOutcomeInv, processResponse, hch]

/-- C4 witness: the record produced by a concrete responded trial has
non-null boolean `correct` and `reward`. -/
theorem trial_data_outcome_inv_witness :
    recordOutcomeInv ⟨0, 0, 1, 25, some 1, some 1000, some true, some true⟩ :=
  trial_data_outcome_inv ⟨25, 4, 3/4, 360⟩ ⟨0, ⟨1, 0, 25⟩, []⟩
    ⟨1, ⟨1, 1, 25⟩, [⟨0, 0, 1, 25, some 1, some 1000, some true, some true⟩]⟩
    0 ⟨some 1, 1, 1/2, 0⟩
    (by
      rw [run_trial_eq_some _ _ _ _ (by norm_num)]
      norm_num [processResponse, advanceContingency, getContingencyDuration,
        randint])
    (by simp) _ (by simp)

/-- The sequence of contingency scheduler states observed after each
completed trial of a run. -/
def contingencyTrace (cfg : TaskConfig) (st : TaskState) :
    List (ℚ × TrialInput) → List ContingencyState
  | [] => []
  | (e, inp) :: rest =>
      match run_trial cfg st e inp with
      | none => []
      | some st2 => st2.contingency :: contingencyTrace cfg st2 rest

/-- Unfolding lemma: a run segment whose first trial completes contributes
that trial's post-advance contingency state to the trace. -/
theorem contingencyTrace_cons (cfg : TaskConfig) (st st2 : TaskState)
    (e : ℚ) (inp : TrialInput) (rest : List (ℚ × TrialInput))
    (h : run_trial cfg st e inp = some st2) :
    contingencyTrace cfg st ((e, inp) :: rest) =
      st2.contingency :: contingencyTrace cfg st2 rest := by
  simp [contingencyTrace, h]

/-- The contingency trace depends only on the contingency component of the
starting state. -/
theorem contingencyTrace_congr (cfg : TaskConfig) :
    ∀ (l : List (ℚ × TrialInput)) (st st' : TaskState),
      st.contingency = st'.contingency →
      contingencyTrace cfg st l = contingencyTrace cfg st' l := by
  intro l
  induction l with
  | nil => intro st st' _; rfl
  | cons p rest ih =>
      intro st st' hc
      obtain ⟨e, inp⟩ := p
      by_cases h : e ≥ cfg.run_duration
      · simp [contingencyTrace, run_trial_eq_none cfg _ e inp h]
      · rw [contingencyTrace_cons cfg st _ e inp rest
            (run_trial_eq_some cfg st e inp h),
          contingencyTrace_cons cfg st' _ e inp rest
            (run_trial_eq_some cfg st' e inp h)]
        refine congrArg₂ List.cons (by simp [hc]) ?_
        exact ih _ _ (by simp [hc])

/-- Replacing every trial's response by a timeout leaves the contingency
trace unchanged. -/
theorem contingencyTrace_map_none (cfg : TaskConfig) :
    ∀ (l : List (ℚ × TrialInput)) (st : TaskState),
      contingencyTrace cfg st
          (l.map fun p => (p.1, { p.2 with choice := none })) =
        contingencyTrace cfg st l := by
  intro l
  induction l with
  | nil => intro st; rfl
  | cons p rest ih =>
      intro st
      obtain ⟨e, inp⟩ := p
      by_cases h : e ≥ cfg.run_duration
      · simp [contingencyTrace, run_trial_eq_none cfg _ e _ h]
      · rw [List.map_cons, contingencyTrace_cons cfg st _ e
            { inp with choice := none } _
            (run_trial_eq_some cfg st e { inp with choice := none } h),
          contingencyTrace_cons cfg st _ e inp rest
            (run_trial_eq_some cfg st e inp h)]
        refine congrArg₂ List.cons (by simp) ?_
        exact (contingencyTrace_congr cfg _ _ _ (by simp)).trans (ih _)

/-- C5: every completed trial advances the contingency scheduler exactly
once — after outcome determination (the appended record snapshots the
pre-advance good option) and regardless of whether a response occurred —
and a run in which every trial times out produces the same contingency
trace (hence the same reversal schedule) as the same run with responses. -/
theorem contingency_advances_once (cfg : TaskConfig) (st : TaskState)
    (elapsed : ℚ) (inp : TrialInput)
    (h : ¬ elapsed ≥ cfg.run_duration) :
    (∃ st2, run_trial cfg st elapsed inp = some st2 ∧
        st2.contingency = advanceContingency cfg st.contingency inp.durSeed ∧
        ∃ tr, st2.trial_data = st.trial_data ++ [tr] ∧
          tr.current_good = st.contingency.current_good)
    ∧ ∀ l : List (ℚ × TrialInput),
        contingencyTrace cfg st
            (l.map fun p => (p.1, { p.2 with choice := none })) =
          contingencyTrace cfg st l := by
  constructor
  · exact ⟨_, run_trial_eq_some cfg st elapsed inp h, rfl, _, rfl, rfl⟩
  · intro l
    exact contingencyTrace_map_none cfg l st

/-- C5 witness: a concrete trial (with a timeout response) advances the
contingency state exactly once. -/
theorem contingency_advances_once_witness :
    (¬ (0 : ℚ) ≥ 360) ∧
      ∃ st2, run_trial ⟨25, 4, 3/4, 360⟩ ⟨0, ⟨1, 0, 25⟩, []⟩ 0
          ⟨none, 0, 1/2, 3⟩ = some st2 ∧
        st2.contingency =
          advanceContingency ⟨25, 4, 3/4, 360⟩ ⟨1, 0, 25⟩ 3 ∧
        ∃ tr, st2.trial_data = [] ++ [tr] ∧ tr.current_good = 1 :=
  ⟨by norm_num,
    (contingency_advances_once ⟨25, 4, 3/4, 360⟩ ⟨0, ⟨1, 0, 25⟩, []⟩ 0
      ⟨none, 0, 1/2, 3⟩ (by norm_num)).1⟩

/-- C7: `run_trial` aborts without running a trial exactly when the
elapsed time at the trial boundary has reached the run duration (the only
termination cause of the loop); once a trial starts (boundary check
passed) it always completes and is recorded, the deadline is never
re-checked mid-trial; and with `run_duration = 0` the run loop completes
zero trials, leaving the state untouched. -/
theorem run_termination_spec (cfg : TaskConfig) (st : TaskState)
    (elapsed : ℚ) (inp : TrialInput) :
    (run_trial cfg st elapsed inp = none ↔ elapsed ≥ cfg.run_duration)
    ∧ (¬ elapsed ≥ cfg.run_duration →
        ∃ st2, run_trial cfg st elapsed inp = some st2 ∧
          st2.trial_data.length = st.trial_data.length + 1)
    ∧ (cfg.run_duration = 0 →
        ∀ l : List (ℚ × TrialInput), (∀ p ∈ l, 0 ≤ p.1) →
          runLoop cfg st l = st) := by
  refine ⟨?_, fun h => ?_, fun hdur l hl => ?_⟩
  · constructor
    · intro hnone
      by_contra h
      rw [run_trial_eq_some cfg st elapsed inp h] at hnone
      exact absurd hnone (by simp)
    · intro h
      exact run_trial_eq_none cfg st elapsed inp h
  · exact ⟨_, run_trial_eq_some cfg st elapsed inp h, by simp⟩
  · cases l with
    | nil => rfl
    | cons p rest =>
        obtain ⟨e, inp2⟩ := p
        have he : e ≥ cfg.run_duration := by
          rw [hdur]
          exact hl (e, inp2) (by simp)
        simp [runLoop, run_trial_eq_none cfg st e inp2 he]

/-- C7 witness: with run duration 360 the boundary check at elapsed 400
ends the run, and with run duration 0 a loop over nonnegative boundary
times records no trial. -/
theorem run_termination_spec_witness :
    (run_trial ⟨25, 4, 3/4, 360⟩ ⟨0, ⟨1, 0, 25⟩, []⟩ 400 ⟨none, 0, 1/2, 0⟩
        = none ↔ (400 : ℚ) ≥ 360) ∧
      runLoop ⟨25, 4, 3/4, 0⟩ ⟨0, ⟨1, 0, 25⟩, []⟩
          [(0, ⟨some 1, 1, 1/2, 0⟩), (5, ⟨none, 0, 1/2, 2⟩)] =
        ⟨0, ⟨1, 0, 25⟩, []⟩ :=
  ⟨(run_termination_spec ⟨25, 4, 3/4, 360⟩ ⟨0, ⟨1, 0, 25⟩, []⟩ 400
      ⟨none, 0, 1/2, 0⟩).1,
    (run_termination_spec ⟨25, 4, 3/4, 0⟩ ⟨0, ⟨1, 0, 25⟩, []⟩ 0
      ⟨none, 0, 1/2, 0⟩).2.2 rfl _ (by
        intro p hp
        fin_cases hp <;> norm_num)⟩

/-- Model of `np.random.randint(lo, hi)` over Python ints, including its
failure mode: numpy raises `ValueError: low >= high` when `hi ≤ lo`. -/
def randintE (lo hi : Int) (seed : Nat) : Except String Int :=
  if hi ≤ lo then Except.error "low >= high"
  else Except.ok (lo + (seed : Int) % (hi - lo))

/-- `_get_contingency_duration` over Python ints:
`min_trials + np.random.randint(0, jitter + 1)`, propagating the numpy
error. -/
def getContingencyDurationE (min_trials jitter : Int) (seed : Nat) :
    Except String Int :=
  (randintE 0 (jitter + 1) seed).map (fun u => min_trials + u)

/-- The contingency fields over Python ints, for the initialization model. -/
structure ContingencyStateI where
  current_good : Int
  trial_in_contingency : Int
  contingency_trials : Int
deriving Repr, DecidableEq

/-- The contingency-scheduler part of `TwoArmedBanditTask.__init__`
(bandit_pygame.py lines 37-39): `current_good = np.random.randint(1, 3)`,
`trial_in_contingency = 0`,
`contingency_trials = self._get_contingency_duration()`.  No parameter
validation is performed anywhere in `__init__` or
`_get_contingency_duration`. -/
def initTaskContingency (min_trials jitter : Int) (goodSeed durSeed : Nat) :
    Except String ContingencyStateI :=
  match randintE 1 3 goodSeed with
  | Except.error msg => Except.error msg
  | Except.ok g =>
      match getContingencyDurationE min_trials jitter durSeed with
      | Except.error msg => Except.error msg
      | Except.ok d =>
          Except.ok { current_good := g
                      trial_in_contingency := 0
                      contingency_trials := d }

/-- C6 counterexample: with `min_trials = 0 < 1` (and `jitter = 0`),
initialization succeeds without raising anything — there is no
`ConfigError` and `min_trials` is never validated.  (The resulting state
even has `contingency_trials = 0`.) -/
theorem initTaskContingency_counterexample :
    initTaskContingency 0 0 0 0 = Except.ok ⟨1, 0, 0⟩ := by
  rfl

/-- C6 amended: initialization fails (with numpy's `ValueError` from the
uniform draw, the only raised error) exactly when `jitter < 0`; for
`jitter ≥ 0` it succeeds for every `min_trials`, which is not validated. -/
theorem initTaskContingency_error_iff (m j : Int) (s1 s2 : Nat) :
    (∃ msg, initTaskContingency m j s1 s2 = Except.error msg) ↔ j < 0 := by
  have h13 : ¬ (3 : Int) ≤ 1 := by norm_num
  unfold initTaskContingency getContingencyDurationE randintE
  rw [if_neg h13]
  by_cases hj : j + 1 ≤ 0
  · rw [if_pos hj]
    constructor
    · intro _
      omega
    · intro _
      exact ⟨"low >= high", rfl⟩
  · rw [if_neg hj]
    constructor
    · rintro ⟨msg, hmsg⟩
      simp only [Except.map] at hmsg
      exact absurd hmsg (by simp)
    · intro hjneg
      exact absurd hjneg (by omega)

/-- Marker codes emitted by NIC-2 (`LSLStimulationTrigger.__init__`). -/
def RAMP_UP_START : Int := 201

/-- Marker code for stimulation ramp-down. -/
def RAMP_DOWN_START : Int := 202

/-- Marker code for stimulation start. -/
def STIMULATION_START : Int := 203

/-- Marker code for stimulation stop. -/
def STIMULATION_STOP : Int := 204

/-- The single designated start code: the task starts on stimulation
start (203). -/
def TASK_START_MARKER : Int := 203

/-- One iteration of the `wait_for_stimulation_start` loop observes
either a dequeued marker or a `queue.Empty` at some elapsed time. -/
inductive PollEvent where
  | marker (code : Int)
  | emptyAt (elapsed : ℚ)
deriving Repr, DecidableEq

/-- `LSLStimulationTrigger.wait_for_stimulation_start` (non-test mode),
driven by the observed sequence of queue polls: a dequeued marker equal to
`TASK_START_MARKER` returns `True`; any other marker is only printed and
the loop continues; on `queue.Empty` the timeout is checked by
`if timeout and (time.time() - start_time) > timeout`, so the loop returns
`False` only when `timeout` is truthy (given and nonzero) and the elapsed
time strictly exceeds it.  `none` means the loop is still waiting when the
observed events run out. -/
def wait_for_stimulation_start (timeout : Option ℚ) :
    List PollEvent → Option Bool
  | [] => none
  | PollEvent.marker c :: rest =>
      if c = TASK_START_MARKER then some true
      else wait_for_stimulation_start timeout rest
  | PollEvent.emptyAt e :: rest =>
      match timeout with
      | some t =>
          if t ≠ 0 ∧ e > t then some false
          else wait_for_stimulation_start timeout rest
      | none => wait_for_stimulation_start timeout rest

/-- Unfolding lemma: a dequeued marker either satisfies the wait (start
code) or is skipped. -/
theorem wait_cons_marker (timeout : Option ℚ) (c : Int)
    (rest : List PollEvent) :
    wait_for_stimulation_start timeout (PollEvent.marker c :: rest) =
      if c = TASK_START_MARKER then some true
      else wait_for_stimulation_start timeout rest := rfl

/-- Unfolding lemma: with no timeout configured, an empty poll just
continues the wait. -/
theorem wait_cons_emptyAt_none (e : ℚ) (rest : List PollEvent) :
    wait_for_stimulation_start none (PollEvent.emptyAt e :: rest) =
      wait_for_stimulation_start none rest := rfl

/-- Unfolding lemma: with a timeout configured, an empty poll returns
`False` when the timeout is nonzero and exceeded, else continues. -/
theorem wait_cons_emptyAt_some (t e : ℚ) (rest : List PollEvent) :
    wait_for_stimulation_start (some t) (PollEvent.emptyAt e :: rest) =
      if t ≠ 0 ∧ e > t then some false
      else wait_for_stimulation_start (some t) rest := rfl

/-- C8 counterexample: with the timeout duration 0 given and no start
marker ever arriving, the wait never returns `False` — Python's
`if timeout and ...` treats a zero timeout as falsy, so the loop keeps
waiting (here through empty polls at elapsed times 1 and 1000000) instead
of timing out. -/
theorem wait_for_start_zero_timeout_counterexample :
    wait_for_stimulation_start (some 0)
        [PollEvent.emptyAt 1, PollEvent.emptyAt 1000000] = none ∧
      wait_for_stimulation_start (some 1)
        [PollEvent.emptyAt 2] = some false := by
  constructor
  · simp [wait_for_stimulation_start]
  · norm_num [wait_for_stimulation_start]

/-- C8 amended: the wait returns `True` only if the designated start
marker 203 was observed — every other marker code is informational and
never satisfies the wait — and when a *nonzero* timeout is given and no
start marker arrives, it returns `False` once an empty poll finds the
elapsed time beyond the timeout. -/
theorem wait_for_start_spec (timeout : Option ℚ) (events : List PollEvent) :
    (wait_for_stimulation_start timeout events = some true →
        PollEvent.marker TASK_START_MARKER ∈ events)
    ∧ (∀ t : ℚ, timeout = some t → t ≠ 0 →
        (∀ c : Int, PollEvent.marker c ∈ events → c ≠ TASK_START_MARKER) →
        (∃ e : ℚ, PollEvent.emptyAt e ∈ events ∧ e > t) →
        wait_for_stimulation_start timeout events = some false) := by
  induction events with
  | nil =>
      refine ⟨by intro h; exact absurd h (by simp [wait_for_stimulation_start]), ?_⟩
      rintro t rfl ht hm ⟨e, he, _⟩
      exact absurd he (by simp)
  | cons ev rest ih =>
      constructor
      · intro h
        cases ev with
        | marker c =>
            by_cases hc : c = TASK_START_MARKER
            · subst hc; exact List.mem_cons_self _ _
            · rw [wait_cons_marker, if_neg hc] at h
              exact List.mem_cons_of_mem _ (ih.1 h)
        | emptyAt e =>
            cases htime : timeout with
            | none =>
                rw [htime, wait_cons_emptyAt_none] at h
                exact List.mem_cons_of_mem _ (ih.1 (htime ▸ h))
            | some t =>
                rw [htime, wait_cons_emptyAt_some] at h
                by_cases hte : t ≠ 0 ∧ e > t
                · rw [if_pos hte] at h
                  exact absurd h (by simp)
                · rw [if_neg hte] at h
                  exact List.mem_cons_of_mem _ (ih.1 (htime ▸ h))
      · rintro t rfl ht hm ⟨e, he, het⟩
        cases ev with
        | marker c =>
            have hc : c ≠ TASK_START_MARKER := hm c (List.mem_cons_self _ _)
            rw [wait_cons_marker, if_neg hc]
            refine ih.2 t rfl ht (fun c2 hc2 => hm c2 (List.mem_cons_of_mem _ hc2)) ?_
            rcases List.mem_cons.mp he with he1 | he2
            · exact absurd he1 (by simp)
            · exact ⟨e, he2, het⟩
        | emptyAt e2 =>
            rw [wait_cons_emptyAt_some]
            by_cases hte : t ≠ 0 ∧ e2 > t
            · rw [if_pos hte]
            · rw [if_neg hte]
              refine ih.2 t rfl ht
                (fun c2 hc2 => hm c2 (List.mem_cons_of_mem _ hc2)) ?_
              rcases List.mem_cons.mp he with he1 | he2
              · obtain rfl : e = e2 := by
                  simpa using he1
                exact absurd ⟨ht, het⟩ hte
              · exact ⟨e, he2, het⟩

/-- C8 witness: a non-start marker (201) is skipped, then the start
marker 203 satisfies the wait, whose successful return indeed implies the
start marker was observed; and with nonzero timeout 1 an all-non-start
event list with a late empty poll returns `False`. -/
theorem wait_for_start_spec_witness :
    (wait_for_stimulation_start (some 10)
        [PollEvent.marker 201, PollEvent.marker 203] = some true →
      PollEvent.marker TASK_START_MARKER ∈
        [PollEvent.marker 201, PollEvent.marker 203]) ∧
      wait_for_stimulation_start (some 1)
        [PollEvent.marker 204, PollEvent.emptyAt 2] = some false :=
  ⟨(wait_for_start_spec (some 10)
      [PollEvent.marker 201, PollEvent.marker 203]).1,
    (wait_for_start_spec (some 1)
      [PollEvent.marker 204, PollEvent.emptyAt 2]).2 1 rfl (by norm_num)
      (by
        intro c hc
        simp at hc
        subst hc
        decide)
      ⟨2, by simp, by norm_num⟩⟩

/-- `LSLStimulationTrigger.check_for_stimulation_stop`: repeatedly
`get_nowait` from the marker queue; return `True` as soon as the stop
marker 204 is dequeued (leaving the rest of the queue buffered), otherwise
consume and continue; return `False` when the queue is exhausted.  The
result is the returned boolean together with the markers still buffered. -/
def check_for_stimulation_stop : List Int → Bool × List Int
  | [] => (false, [])
  | c :: rest =>
      if c = STIMULATION_STOP then (true, rest)
      else check_for_stimulation_stop rest

/-- C9 counterexample: with two stop markers buffered, the first call
returns `True` but does *not* drain the buffer (the second 204 stays), so
a second call with no new markers since returns `True` again — against the
claimed drain-everything and since-last-call semantics. -/
theorem check_stop_counterexample :
    check_for_stimulation_stop [204, 204] = (true, [204]) ∧
      (check_for_stimulation_stop
        (check_for_stimulation_stop [204, 204]).2).1 = true := by
  constructor
  · decide
  · decide

/-- C9 amended: the poll returns `True` exactly when a stop marker is in
the buffer; it consumes the markers up to and including the *first* stop
marker only (each marker at most once — the returned stop marker is
removed), leaving everything after it buffered; without a stop marker it
consumes the whole buffer and returns `False`. -/
theorem check_stop_spec (q : List Int) :
    ((check_for_stimulation_stop q).1 = true ↔ STIMULATION_STOP ∈ q)
    ∧ (STIMULATION_STOP ∉ q → check_for_stimulation_stop q = (false, []))
    ∧ (STIMULATION_STOP ∈ q →
        ∃ pre, STIMULATION_STOP ∉ pre ∧
          q = pre ++ STIMULATION_STOP :: (check_for_stimulation_stop q).2) := by
  induction q with
  | nil => refine ⟨by simp [check_for_stimulation_stop], fun _ => rfl, by simp⟩
  | cons c rest ih =>
      by_cases hc : c = STIMULATION_STOP
      · subst hc
        refine ⟨by simp [check_for_stimulation_stop], ?_, ?_⟩
        · intro hmem
          exact absurd (List.mem_cons_self _ _) hmem
        · intro _
          exact ⟨[], by simp, by simp [check_for_stimulation_stop]⟩
      · have hstep : check_for_stimulation_stop (c :: rest) =
            check_for_stimulation_stop rest := by
          simp [check_for_stimulation_stop, hc]
        refine ⟨?_, ?_, ?_⟩
        · rw [hstep]
          rw [ih.1]
          constructor
          · exact fun h => List.mem_cons_of_mem _ h
          · intro h
            rcases List.mem_cons.mp h with h1 | h2
            · exact absurd h1.symm hc
            · exact h2
        · intro hmem
          rw [hstep]
          exact ih.2.1 (fun h => hmem (List.mem_cons_of_mem _ h))
        · intro hmem
          have hrest : STIMULATION_STOP ∈ rest := by
            rcases List.mem_cons.mp hmem with h1 | h2
            · exact absurd h1.symm hc
            · exact h2
          obtain ⟨pre, hpre, heq⟩ := ih.2.2 hrest
          refine ⟨c :: pre, ?_, ?_⟩
          · intro h
            rcases List.mem_cons.mp h with h1 | h2
            · exact hc h1.symm
            · exact hpre h2
          · rw [hstep, List.cons_append, ← heq]

/-- C9 witness: a queue holding 201, then 204, then 203 yields `True`
(a stop marker is buffered) and the consumed part is exactly `[201, 204]`,
leaving `[203]`. -/
theorem check_stop_spec_witness :
    ((check_for_stimulation_stop [201, 204, 203]).1 = true ↔
        STIMULATION_STOP ∈ [(201 : Int), 204, 203]) ∧
      ∃ pre, STIMULATION_STOP ∉ pre ∧
        [(201 : Int), 204, 203] = pre ++ STIMULATION_STOP ::
          (check_for_stimulation_stop [201, 204, 203]).2 :=
  ⟨(check_stop_spec [201, 204, 203]).1,
    (check_stop_spec [201, 204, 203]).2.2 (by decide)⟩

/-- Python `str.isdigit()` restricted to ASCII subject IDs: true when the
string is nonempty and every character is a decimal digit. -/
def pyIsDigit (s : List Char) : Bool :=
  !s.isEmpty && s.all (fun c => 48 ≤ c.toNat && c.toNat ≤ 57)

/-- Python `int(s)` on an all-digit string: left fold of decimal digits. -/
def digitsVal (s : List Char) : Nat :=
  s.foldl (fun a c => 10 * a + (c.toNat - 48)) 0

/-- The counterbalancing subject number:
`int(subject_id) if subject_id.isdigit() else 0`
(bandit_pygame.py line 148, bandit_main_v13.py line 480). -/
def subjectNum (s : List Char) : Nat :=
  if pyIsDigit s then digitsVal s else 0

/-- The counterbalancing branch of `get_subject_info` in
`bandit_pygame.py` (lines 149-164): even subject numbers get theta in runs
2-3 and sham in runs 6-7, odd the reverse, everything else none. -/
def stimCondition (s : List Char) (run : Nat) : String :=
  if subjectNum s % 2 = 0 then
    if run = 2 ∨ run = 3 then "theta"
    else if run = 6 ∨ run = 7 then "sham"
    else "none"
  else
    if run = 2 ∨ run = 3 then "sham"
    else if run = 6 ∨ run = 7 then "theta"
    else "none"

/-- The fallback counterbalancing branch of `get_subject_info` in
`bandit_main_v13.py` (lines 481-495): same structure with labels
active/sham/baseline. -/
def stimConditionV13 (s : List Char) (run : Nat) : String :=
  if subjectNum s % 2 = 0 then
    if run = 2 ∨ run = 3 then "active"
    else if run = 6 ∨ run = 7 then "sham"
    else "baseline"
  else
    if run = 2 ∨ run = 3 then "sham"
    else if run = 6 ∨ run = 7 then "active"
    else "baseline"

/-- C10: any subject ID that is not composed entirely of digits gets
subject number 0, hence the even branch: theta/active stimulation for runs
2 and 3, sham for runs 6 and 7 (in both task variants), and the assignment
is identical for all non-numeric IDs. -/
theorem nondigit_counterbalancing (s : List Char) (run : Nat)
    (h : pyIsDigit s = false) :
    subjectNum s = 0
    ∧ stimCondition s 2 = "theta" ∧ stimCondition s 3 = "theta"
    ∧ stimCondition s 6 = "sham" ∧ stimCondition s 7 = "sham"
    ∧ stimConditionV13 s 2 = "active" ∧ stimConditionV13 s 3 = "active"
    ∧ stimConditionV13 s 6 = "sham" ∧ stimConditionV13 s 7 = "sham"
    ∧ (∀ s2 : List Char, pyIsDigit s2 = false →
        stimCondition s run = stimCondition s2 run ∧
        stimConditionV13 s run = stimConditionV13 s2 run) := by
  have hz : subjectNum s = 0 := by simp [subjectNum, h]
  refine ⟨hz, ?_, ?_, ?_, ?_, ?_, ?_, ?_, ?_, ?_⟩
  · simp [stimCondition, hz]
  · simp [stimCondition, hz]
  · simp [stimCondition, hz]
  · simp [stimCondition, hz]
  · simp [stimConditionV13, hz]
  · simp [stimConditionV13, hz]
  · simp [stimConditionV13, hz]
  · simp [stimConditionV13, hz]
  · intro s2 h2
    have hz2 : subjectNum s2 = 0 := by simp [subjectNum, h2]
    constructor
    · simp [stimCondition, hz, hz2]
    · simp [stimConditionV13, hz, hz2]

/-- C10 witness: the non-numeric subject ID "sub7" is treated as subject
number 0 and assigned theta/active for run 2 and sham for run 6. -/
theorem nondigit_counterbalancing_witness :
    subjectNum [Char.ofNat 115, Char.ofNat 117, Char.ofNat 98, Char.ofNat 55] = 0 ∧
      stimCondition [Char.ofNat 115, Char.ofNat 117, Char.ofNat 98, Char.ofNat 55] 2 = "theta" ∧
      stimCondition [Char.ofNat 115, Char.ofNat 117, Char.ofNat 98, Char.ofNat 55] 3 = "theta" ∧
      stimCondition [Char.ofNat 115, Char.ofNat 117, Char.ofNat 98, Char.ofNat 55] 6 = "sham" ∧
      stimCondition [Char.ofNat 115, Char.ofNat 117, Char.ofNat 98, Char.ofNat 55] 7 = "sham" ∧
      stimConditionV13 [Char.ofNat 115, Char.ofNat 117, Char.ofNat 98, Char.ofNat 55] 2 = "active" ∧
      stimConditionV13 [Char.ofNat 115, Char.ofNat 117, Char.ofNat 98, Char.ofNat 55] 3 = "active" ∧
      stimConditionV13 [Char.ofNat 115, Char.ofNat 117, Char.ofNat 98, Char.ofNat 55] 6 = "sham" ∧
      stimConditionV13 [Char.ofNat 115, Char.ofNat 117, Char.ofNat 98, Char.ofNat 55] 7 = "sham" := by
  have h := nondigit_counterbalancing
    [Char.ofNat 115, Char.ofNat 117, Char.ofNat 98, Char.ofNat 55] 2 (by decide)
  exact ⟨h.1, h.2.1, h.2.2.1, h.2.2.2.1, h.2.2.2.2.1, h.2.2.2.2.2.1,
    h.2.2.2.2.2.2.1, h.2.2.2.2.2.2.2.1, h.2.2.2.2.2.2.2.2.1⟩
